import Mathlib

/-!
Verification of the audit-event logging core of the ansible auditlog
callback plugin (src/auditlog.py; src/auditlog2.py duplicates the same
writer and helpers verbatim).

The Python code is shallowly embedded here:

* JSON-serializable Python values become the inductive type `Value`;
  a Python `dict` becomes an association list `Dict` with first-occurrence
  lookup (`dictGet`) and replace-or-append assignment (`dictSet`), which
  matches the unique-key / insertion-order semantics of real dicts.
* The filesystem is a mapping from path to file content (`Fs`); opening a
  file in append mode and writing is `fsAppend`.
* Fallible Python code returns `Except PyError`; ambient effects
  (`uuid.uuid4()`, `socket.gethostname()`, `datetime.now()`, the outcome
  of the writability probe) are explicit parameters.
-/

/-- A JSON-serializable Python value: `None`, `bool`, `int`, `str`, `dict`.
(The repository only ever logs these shapes.) -/
inductive Value where
  | vnull : Value
  | vbool : Bool → Value
  | vint : Int → Value
  | vstr : String → Value
  | vdict : List (String × Value) → Value

/-- A Python dict with string keys, as an association list in insertion
order.  Real dicts have unique keys; theorems that depend on uniqueness
carry a `Nodup` hypothesis on the key list. -/
abbrev Dict := List (String × Value)

/-- Python `d.get(k)` / `d[k]` lookup: the (first) binding of `k`. -/
def dictGet (d : Dict) (k : String) : Option Value :=
  match d with
  | [] => none
  | (k', v) :: rest => if k' = k then some v else dictGet rest k

/-- Python `d[k] = v`: replace the value at the first binding of `k`,
keeping its position, or append a new binding at the end. -/
def dictSet (d : Dict) (k : String) (v : Value) : Dict :=
  match d with
  | [] => [(k, v)]
  | (k', v') :: rest => if k' = k then (k, v) :: rest else (k', v') :: dictSet rest k v

/-- Python truthiness of a `Value` (`if x:`): `None`, `False`, `0`, `""`
and `{}` are falsy, everything else truthy. -/
def pyTruthy : Value → Bool
  | .vnull => false
  | .vbool b => b
  | .vint n => n != 0
  | .vstr s => s != ""
  | .vdict l => !l.isEmpty

/-- Python `str.split(sep)` for a one-character separator, on the
character list of the string: `"" → [""]`, `"a.b" → ["a","b"]`,
`"." → ["",""]`.  `acc` holds the (reversed) characters of the current
segment. -/
def pySplitAux (sep : Char) : List Char → List Char → List String
  | [], acc => [⟨acc.reverse⟩]
  | c :: rest, acc =>
      if c = sep then ⟨acc.reverse⟩ :: pySplitAux sep rest []
      else pySplitAux sep rest (c :: acc)

/-- Python `s.split(sep)` for a one-character separator. -/
def pySplit (sep : Char) (s : String) : List String :=
  pySplitAux sep s.data []

/-- Python exceptions raised (or raisable) by the embedded code. -/
inductive PyError where
  | keyError : String → PyError
  | attributeError : String → PyError
  | oserror : Nat → String → PyError
  | exceptionMsg : String → PyError
deriving DecidableEq

/-- `get_dotted_val_in_dict` (src/auditlog.py lines 21-48) on the list of
`.`-separated segments of the key string.  The source recurses by
splitting off one segment at a time with `keys.split(".", 1)`; iterating
that split yields exactly the segment list, and the `"." in keys` test is
exactly "more than one segment remains".

Base case (`else` branch of the source): `if d.get(keys): return d[keys]`
— `d.get` of a missing key is `None` (falsy), and the subscript `d[keys]`
raises `KeyError` when the key is absent (which the guard makes
unreachable, as proved below).  Falling off the end of the function
returns `None`, modelled as `.ok none`.

Step case: `dval = d.get(key, {})`; recurse when `dval` is a dict, else
fall through to `None`. -/
def get_dotted_segs (d : Dict) : List String → Except PyError (Option Value)
  | [] => .ok none
  | [k] =>
      if pyTruthy ((dictGet d k).getD .vnull) then
        match dictGet d k with
        | some v => .ok (some v)
        | none => .error (.keyError k)
      else
        .ok none
  | k :: rest =>
      match (dictGet d k).getD (.vdict []) with
      | .vdict d2 => get_dotted_segs d2 rest
      | _ => .ok none

/-- `get_dotted_val_in_dict(d, keys)`: resolve the dotted path `keys`
inside the nested dict `d` (src/auditlog.py lines 21-48). -/
def get_dotted_val_in_dict (d : Dict) (keys : String) : Except PyError (Option Value) :=
  get_dotted_segs d (pySplit '.' keys)

/-- Specification-side predicate for C5: the dotted path (as its segment
list) fully resolves through nested mappings, and the terminal segment is
present with a truthy value `v`. -/
inductive ResolvesTruthy : Dict → List String → Value → Prop where
  | last (d : Dict) (k : String) (v : Value) :
      dictGet d k = some v → pyTruthy v = true → ResolvesTruthy d [k] v
  | step (d : Dict) (k : String) (ks : List String) (d2 : Dict) (v : Value) :
      ks ≠ [] → dictGet d k = some (.vdict d2) → ResolvesTruthy d2 ks v →
      ResolvesTruthy d (k :: ks) v

/-- `truthy_string(s)` (src/auditlog.py lines 51-53):
`str(s).lower() in ['true', '1', 'y', 'yes']`.  The configuration values
compared here are ASCII, so ASCII lower-casing is the relevant fragment
of `str.lower`. -/
def truthy_string (s : String) : Bool :=
  let lower : String := ⟨s.data.map fun c => if 'A' ≤ c ∧ c ≤ 'Z' then Char.ofNat (c.toNat + 32) else c⟩
  lower = "true" || lower = "1" || lower = "y" || lower = "yes"

/-- Hexadecimal digit character (lowercase), as in Python's `\uXXXX`
escapes. -/
def hexDigitChar (n : Nat) : Char :=
  if n % 16 < 10 then Char.ofNat (48 + n % 16) else Char.ofNat (87 + n % 16)

/-- Four lowercase hex digits of `n % 65536`. -/
def hex4 (n : Nat) : List Char :=
  [hexDigitChar (n / 4096), hexDigitChar (n / 256), hexDigitChar (n / 16), hexDigitChar n]

/-- Python `json.dumps` `\uXXXX` escape for the code point `n`, with a
surrogate pair for code points beyond the basic multilingual plane. -/
def escUnicode (n : Nat) : List Char :=
  if n < 65536 then '\\' :: 'u' :: hex4 n
  else
    let v := n - 65536
    ('\\' :: 'u' :: hex4 (55296 + v / 1024)) ++ ('\\' :: 'u' :: hex4 (56320 + v % 1024))

/-- Python `json.dumps` escaping of one character inside a string literal
(default `ensure_ascii=True`): short escapes for quote, backslash and the
common control characters, `\uXXXX` for the remaining characters outside
the printable ASCII range `0x20`-`0x7E`. -/
def escapeChar (c : Char) : List Char :=
  if c = '"' then ['\\', '"']
  else if c = '\\' then ['\\', '\\']
  else if c = '\n' then ['\\', 'n']
  else if c = '\r' then ['\\', 'r']
  else if c = '\t' then ['\\', 't']
  else if c.toNat = 8 then ['\\', 'b']
  else if c.toNat = 12 then ['\\', 'f']
  else if c.toNat < 32 || c.toNat ≥ 127 then escUnicode c.toNat
  else [c]

/-- Python `json.dumps` rendering of a string: a double-quoted,
character-escaped literal. -/
def renderString (s : String) : List Char :=
  '"' :: (s.data.map escapeChar).flatten ++ ['"']

/-- Decimal digits of a natural number, as `str(n)` renders them. -/
def natDigits (n : Nat) : List Char :=
  if n < 10 then [hexDigitChar (n % 10)]
  else natDigits (n / 10) ++ [hexDigitChar (n % 10)]
decreasing_by exact Nat.div_lt_self (by omega) (by omega)

/-- Python `str(n)` for an integer, as `json.dumps` emits it. -/
def intDigits : Int → List Char
  | .ofNat n => natDigits n
  | .negSucc n => '-' :: natDigits (n + 1)

/-- Comparison of key-value pairs by key only, as
`json.dumps(..., sort_keys=True)` sorts a dict's items. -/
def keyLe {α : Type} (a b : String × α) : Prop := a.1 ≤ b.1

instance keyLe.instDecidableRel {α : Type} : DecidableRel (@keyLe α) :=
  fun a b => inferInstanceAs (Decidable (a.1 ≤ b.1))

instance keyLe.instIsTotal {α : Type} : IsTotal (String × α) keyLe :=
  ⟨fun a b => le_total a.1 b.1⟩

instance keyLe.instIsTrans {α : Type} : IsTrans (String × α) keyLe :=
  ⟨fun _ _ _ h1 h2 => le_trans h1 h2⟩

/-- Strict variant of `keyLe`, used in proofs about dicts with distinct
keys. -/
def keyLt {α : Type} (a b : String × α) : Prop := a.1 < b.1

instance keyLt.instIsAntisymm {α : Type} : IsAntisymm (String × α) keyLt :=
  ⟨fun _ _ h1 h2 => absurd h2 (lt_asymm h1)⟩

/-- Item separator `", "`, Python `json.dumps`'s default when no indent is
given. -/
def joinSep : List (List Char) → List Char
  | [] => []
  | [x] => x
  | x :: xs => x ++ ',' :: ' ' :: joinSep xs

mutual

/-- Characters of `json.dumps(v, sort_keys=True)`.  A dict is rendered by
sorting its items by key and joining `"key": value` pieces with `", "`
inside braces.  (Rendering each value first and then sorting the pairs by
key gives the same output as sorting and then rendering, since the
comparison reads only the key.) -/
def renderValue : Value → List Char
  | .vnull => ['n', 'u', 'l', 'l']
  | .vbool true => ['t', 'r', 'u', 'e']
  | .vbool false => ['f', 'a', 'l', 's', 'e']
  | .vint n => intDigits n
  | .vstr s => renderString s
  | .vdict fields =>
      let items := (List.insertionSort keyLe (renderFields fields)).map
        (fun kv => renderString kv.1 ++ ':' :: ' ' :: kv.2)
      '{' :: joinSep items ++ ['}']

/-- Render each value of an item list, keeping the keys. -/
def renderFields : List (String × Value) → List (String × List Char)
  | [] => []
  | (k, v) :: rest => (k, renderValue v) :: renderFields rest

end

/-- `json.dumps(v, sort_keys=True)` (src/auditlog.py line 91). -/
def json_dumps (v : Value) : String := ⟨renderValue v⟩

/-- The filesystem, as path → content for the files that exist. -/
abbrev Fs := List (String × String)

/-- Open `path` in append mode and write `chunk`: create the file with
content `chunk` if it does not exist, else append `chunk` to its
content. -/
def fsAppend (fs : Fs) (path : String) (chunk : String) : Fs :=
  match fs with
  | [] => [(path, chunk)]
  | (p, c) :: rest => if p = path then (p, c ++ chunk) :: rest else (p, c) :: fsAppend rest path chunk

/-- Content of the file at `path`, empty if absent. -/
def fsRead (fs : Fs) (path : String) : String :=
  match fs with
  | [] => ""
  | (p, c) :: rest => if p = path then c else fsRead rest path

/-- Python `os.path.join(a, b)` for two components. -/
def ospath_join (a b : String) : String :=
  if b.data.head? = some '/' then b
  else if a = "" then b
  else if a.data.getLast? = some '/' then a ++ b
  else a ++ "/" ++ b

/-- Outcome of `tempfile.TemporaryFile(dir=path)` — the writability probe
of `JsonAuditLogger.isWritable` (src/auditlog.py lines 74-83), which
attempts to create (and, by closing, remove) a throwaway file in the
directory instead of inspecting permission bits.  The probe either
succeeds, leaving the filesystem as it was, or raises `OSError` with some
errno. -/
inductive DirProbe where
  | ok : DirProbe
  | oserror : Nat → DirProbe

/-- `errno.EACCES`. -/
def eACCES : Nat := 13

/-- `JsonAuditLogger.isWritable(path)` (src/auditlog.py lines 74-83):
`True` when the throwaway-file probe succeeds, `False` when it raises
`OSError` with `errno.EACCES`; any other `OSError` is re-raised after
setting its `filename` to `path`. -/
def isWritable (probe : DirProbe) (path : String) : Except PyError Bool :=
  match probe with
  | .ok => .ok true
  | .oserror e => if e = eACCES then .ok false else .error (.oserror e path)

/-- The writer state fixed at construction (src/auditlog.py lines 56-72):
the run `uuid`, the control `hostname` and the computed `logfile` path.
No field is ever reassigned after `__init__`. -/
structure JsonAuditLogger where
  uuid : String
  hostname : String
  logfile : String

/-- `JsonAuditLogger.__init__(logdir)` (src/auditlog.py lines 62-72).
`freshUuid` stands for `str(uuid.uuid4())` and `hostname` for
`socket.gethostname()`.  The writability probe is performed; if it
reports unwritable, `Exception("Access denied to <logdir>")` is raised,
and any other probe error propagates.  On success the logfile path is
computed as `os.path.join(logdir, uuid + ".log")`; the file itself is not
created (first `log` call creates it via append mode), so the filesystem
is returned unchanged in every case (the probe's throwaway temporary file
is already removed again when the probe returns). -/
def JsonAuditLogger.init (freshUuid hostname logdir : String) (probe : DirProbe) (fs : Fs) :
    Except PyError JsonAuditLogger × Fs :=
  match isWritable probe logdir with
  | .error e => (.error e, fs)
  | .ok false => (.error (.exceptionMsg ("Access denied to " ++ logdir)), fs)
  | .ok true =>
      (.ok { uuid := freshUuid, hostname := hostname,
             logfile := ospath_join logdir (freshUuid ++ ".log") }, fs)

/-- The four envelope assignments of `JsonAuditLogger.log`
(src/auditlog.py lines 86-89), in source order:

    log_entry['event'] = event_id
    log_entry['timestamp'] = datetime.datetime.now().isoformat()
    log_entry['controlhost'] = self.hostname
    log_entry['uuid'] = self.uuid

`now` stands for `datetime.datetime.now().isoformat()`. -/
def envelopeUpdate (w : JsonAuditLogger) (now event_id : String) (log_entry : Dict) : Dict :=
  dictSet (dictSet (dictSet (dictSet log_entry
    "event" (.vstr event_id))
    "timestamp" (.vstr now))
    "controlhost" (.vstr w.hostname))
    "uuid" (.vstr w.uuid)

/-- `JsonAuditLogger.log(event_id, log_entry)` (src/auditlog.py lines
85-94): stamp the envelope into the entry, serialize it with
`json.dumps(..., sort_keys=True)`, and append the line plus `"\n"` to the
logfile.  Returns the stamped entry (the caller's dict, which the method
mutates in place — see `JsonAuditLogger.logRef` for the reference-level
view of that mutation) together with the new filesystem. -/
def JsonAuditLogger.log (w : JsonAuditLogger) (now : String) (fs : Fs) (event_id : String)
    (log_entry : Dict) : Dict × Fs :=
  let e := envelopeUpdate w now event_id log_entry
  (e, fsAppend fs w.logfile (json_dumps (.vdict e) ++ "\n"))

/-- A heap of Python dict objects, for the claims about reference
semantics: a dict value lives at an index, and every alias sees updates
through it. -/
abbrev Heap := List Dict

/-- The dict object at reference `r` (empty for a dangling reference). -/
def heapGet (h : Heap) (r : Nat) : Dict :=
  match h, r with
  | [], _ => []
  | d :: _, 0 => d
  | _ :: t, n + 1 => heapGet t n

/-- Overwrite the dict object at reference `r`. -/
def heapSet (h : Heap) (r : Nat) (d : Dict) : Heap :=
  match h, r with
  | [], _ => []
  | _ :: t, 0 => d :: t
  | x :: t, n + 1 => x :: heapSet t n d

/-- `JsonAuditLogger.log` at the level of dict references, making the
Python calling convention explicit: `def log(self, event_id,
log_entry={})` evaluates `{}` once, at function definition time, to a
single dict object (`defaultRef` here); a call that omits the argument
binds `log_entry` to that shared object, and the four envelope
assignments mutate whichever object `log_entry` names — the caller's own
dict when one was passed (`arg = some r`), the shared default otherwise.
No copy is ever taken. -/
def JsonAuditLogger.logRef (w : JsonAuditLogger) (defaultRef : Nat) (now event_id : String)
    (arg : Option Nat) (h : Heap) (fs : Fs) : Heap × Fs :=
  let r := arg.getD defaultRef
  let e := envelopeUpdate w now event_id (heapGet h r)
  (heapSet h r e, fsAppend fs w.logfile (json_dumps (.vdict e) ++ "\n"))

/-- The non-ASCII Unicode word characters recognized by the sanitizer
`re.compile('[^\w.,]+', re.UNICODE)` (src/auditlog.py line 146),
tabulated for code points up to U+00FF — the byte range of the
environment strings involved: the Latin-1 alphanumerics `ª µ º ² ³ ¹ ¼ ½
¾` and the letters U+00C0–U+00FF apart from the two signs `×` and
`÷`. -/
def isLatin1WordExtra (n : Nat) : Bool :=
  n = 0xAA || n = 0xB5 || n = 0xBA || n = 0xB2 || n = 0xB3 || n = 0xB9 ||
    (0xBC ≤ n && n ≤ 0xBE) || (0xC0 ≤ n && n ≤ 0xFF && !(n = 0xD7) && !(n = 0xF7))

/-- Python's regex class `\w` under `re.UNICODE` for one character:
underscore plus the characters the Unicode database classifies as
alphanumeric — ASCII alphanumerics plus, beyond ASCII,
`isLatin1WordExtra`. -/
def isPyWordChar (c : Char) : Bool :=
  c.isAlphanum || c = '_' || isLatin1WordExtra c.toNat

/-- The audit-variable configuration parsing of `CallbackModule.__init__`
for a non-empty `ANSIBLE_AUDITLOG_AUDIT_VARS` (src/auditlog.py lines
144-151, identically src/auditlog2.py lines 162-169):
`pattern.sub('', audit_vars)` deletes every character that `[^\w.,]+`
matches, the result is split on `','`, and `dict((el, 0) for el in ...)`
maps each surviving path to the placeholder `0`. -/
def configure (raw : String) : Dict :=
  let cleaned : List Char := raw.data.filter fun c => isPyWordChar c || c = '.' || c = ','
  let parts := pySplitAux ',' cleaned []
  parts.foldl (fun d el => dictSet d el (.vint 0)) []

/-- The parsing step exactly as claim C6 words it: discard the characters
outside `[A-Za-z0-9_.,]` (ASCII only), split on commas, map each
surviving path to an unset value.  Stated from the claim's words, to be
compared against `configure`. -/
def configureSpecAscii (raw : String) : Dict :=
  let cleaned : List Char := raw.data.filter fun c => c.isAlphanum || c = '_' || c = '.' || c = ','
  let parts := pySplitAux ',' cleaned []
  parts.foldl (fun d el => dictSet d el (.vint 0)) []

/-- The environment variables `CallbackModule.__init__` reads
(src/auditlog.py lines 131-137); `none` means the variable is unset. -/
structure Env where
  auditlog_disabled : Option String
  logname_enabled : Option String
  logdir : Option String
  audit_vars : Option String
  failmode : Option String

/-- The attributes `CallbackModule.__init__` may set.  `audit_vars` and
`logger` are `Option` because the early return of the disabled branch
(and, for `logger`, a failed construction) leaves the attribute unset;
reading an unset attribute raises `AttributeError`. -/
structure CallbackModule where
  disabled : Bool
  log_logname : Bool
  audit_vars : Option Dict
  logger : Option JsonAuditLogger

/-- Outcome of `CallbackModule.__init__`: either the constructed module,
or process termination via `sys.exit(1)`. -/
inductive InitResult where
  | exited : Nat → InitResult
  | ok : CallbackModule → InitResult

/-- `CallbackModule.__init__` (src/auditlog.py lines 131-161).  The
`getenv` defaults `0` and `1` are integers whose `str()` is `"0"` and
`"1"`.  When disabled, the constructor warns and returns before touching
the filesystem or setting `audit_vars`/`logger`.  Otherwise it parses the
audit-variable list, then constructs the writer; if that raises, it sets
`disabled`, warns, and — when the failure mode is `'fail'` — terminates
the process with `sys.exit(1)`. -/
def CallbackModule.init (env : Env) (freshUuid hostname : String) (probe : DirProbe) (fs : Fs) :
    InitResult × Fs :=
  let disabled := truthy_string (env.auditlog_disabled.getD "0")
  let log_logname := truthy_string (env.logname_enabled.getD "1")
  let logdir := env.logdir.getD "/var/log/ansible"
  let fail_mode := env.failmode.getD "warn"
  if disabled then
    (.ok { disabled := true, log_logname := log_logname, audit_vars := none, logger := none }, fs)
  else
    let audit_vars : Dict :=
      match env.audit_vars with
      | some s => if s ≠ "" then configure s else []
      | none => []
    match JsonAuditLogger.init freshUuid hostname logdir probe fs with
    | (.ok logger, fs2) =>
        (.ok { disabled := false, log_logname := log_logname,
               audit_vars := some audit_vars, logger := some logger }, fs2)
    | (.error _, fs2) =>
        if fail_mode = "fail" then (.exited 1, fs2)
        else (.ok { disabled := true, log_logname := log_logname,
                    audit_vars := some audit_vars, logger := none }, fs2)

/-- `res.get('invocation', {}).get('module_name', '')` as the runner
handlers compute it; the second `.get` raises `AttributeError` when the
`invocation` value is not a dict. -/
def getModuleName (res : Dict) : Except PyError Value :=
  match (dictGet res "invocation").getD (.vdict []) with
  | .vdict inv => .ok ((dictGet inv "module_name").getD (.vstr ""))
  | _ => .error (.attributeError "get")

/-- `CallbackModule.runner_on_ok` (src/auditlog.py lines 175-182). -/
def CallbackModule.runner_on_ok (cm : CallbackModule) (now host : String) (res : Dict)
    (fs : Fs) : Except PyError Fs := do
  let changed := if pyTruthy ((dictGet res "changed").getD (.vbool false)) then "changed" else "ok"
  let module_name ← getModuleName res
  match cm.logger with
  | none => .error (.attributeError "logger")
  | some lg => .ok (lg.log now fs "runner_on_ok"
      [("inventory_host", .vstr host), ("status", .vstr changed),
       ("module_name", module_name)]).2

/-- `CallbackModule.runner_on_failed` (src/auditlog.py lines 166-173). -/
def CallbackModule.runner_on_failed (cm : CallbackModule) (now host : String) (res : Dict)
    (ignore_errors : Bool) (fs : Fs) : Except PyError Fs := do
  let module_name ← getModuleName res
  match cm.logger with
  | none => .error (.attributeError "logger")
  | some lg => .ok (lg.log now fs "runner_on_failed"
      [("inventory_host", .vstr host), ("module_name", module_name),
       ("ignore_errors", .vbool ignore_errors),
       ("msg", (dictGet res "msg").getD (.vstr ""))]).2

/-- `CallbackModule.runner_on_error` (src/auditlog.py lines 187-191). -/
def CallbackModule.runner_on_error (cm : CallbackModule) (now host msg : String) (fs : Fs) :
    Except PyError Fs :=
  match cm.logger with
  | none => .error (.attributeError "logger")
  | some lg => .ok (lg.log now fs "runner_on_error"
      [("inventory_host", .vstr host), ("msg", .vstr msg)]).2

/-- `CallbackModule.runner_on_unreachable` (src/auditlog.py lines
193-196). -/
def CallbackModule.runner_on_unreachable (cm : CallbackModule) (now host : String) (res : Dict)
    (fs : Fs) : Except PyError Fs :=
  match cm.logger with
  | none => .error (.attributeError "logger")
  | some lg => .ok (lg.log now fs "runner_on_unreachable"
      [("inventory_host", .vstr host)]).2

/-- `CallbackModule.playbook_on_start` (src/auditlog.py lines 221-261).
The `log_entry` the handler builds is extracted from the ansible playbook
object, the environment and the `logname` subprocess — external
collaborators per spec section 1, so the prepared mapping arrives here as
`entry`; the handler then performs the single `record` call. -/
def CallbackModule.playbook_on_start (cm : CallbackModule) (now : String) (entry : Dict)
    (fs : Fs) : Except PyError Fs :=
  match cm.logger with
  | none => .error (.attributeError "logger")
  | some lg => .ok (lg.log now fs "playbook_on_start" entry).2

/-- `CallbackModule.playbook_on_task_start` (src/auditlog.py lines
272-275). -/
def CallbackModule.playbook_on_task_start (cm : CallbackModule) (now taskName : String)
    (fs : Fs) : Except PyError Fs :=
  match cm.logger with
  | none => .error (.attributeError "logger")
  | some lg => .ok (lg.log now fs "playbook_on_task_start"
      [("name", .vstr taskName)]).2

/-- The audit-variable snapshot loop of `playbook_on_play_start`
(src/auditlog.py lines 303-305): for each configured path (a key of
`audit_vars`, in insertion order) resolve it in the combined variables
and store the result — `None` when the path yields no value — back under
that path. -/
def snapshotVars (audit_vars : Dict) (my_vars : Dict) : Except PyError Dict :=
  (audit_vars.map Prod.fst).foldlM
    (fun d k => do
      let val ← get_dotted_val_in_dict my_vars k
      pure (dictSet d k (val.getD .vnull)))
    audit_vars

/-- The play attributes `playbook_on_play_start` reads off the ansible
play object (external collaborator); each is already a plain value at the
core's boundary.  (`sudo_v` holds the `sudo` attribute; `sudo` itself is
a reserved word here.) -/
structure PlayFields where
  name : Value
  remote_user : Value
  su : Value
  su_user : Value
  sudo_v : Value
  sudo_user : Value
  become : Value
  become_method : Value
  become_user : Value
  serial : Value
  max_fail_percentage : Value
  hosts : Value

/-- `CallbackModule.playbook_on_play_start` (src/auditlog.py lines
291-320): skip empty plays, snapshot the audit variables for later, and
log the play-start record (which carries the play attributes but not the
snapshot). -/
def CallbackModule.playbook_on_play_start (cm : CallbackModule) (now : String)
    (hosts_in_play : List String) (my_vars : Dict) (p : PlayFields) (fs : Fs) :
    Except PyError (CallbackModule × Fs) :=
  if hosts_in_play.length = 0 then .ok (cm, fs)
  else
    match cm.audit_vars with
    | none => .error (.attributeError "audit_vars")
    | some av => do
        let av2 ← snapshotVars av my_vars
        match cm.logger with
        | none => .error (.attributeError "logger")
        | some lg =>
            .ok ({ cm with audit_vars := some av2 },
              (lg.log now fs "playbook_on_play_start"
                [("name", p.name), ("remote_user", p.remote_user), ("su", p.su),
                 ("su_user", p.su_user), ("sudo", p.sudo_v), ("sudo_user", p.sudo_user),
                 ("become", p.become), ("become_method", p.become_method),
                 ("become_user", p.become_user), ("serial", p.serial),
                 ("max_fail_percentage", p.max_fail_percentage), ("hosts", p.hosts)]).2)

/-- `CallbackModule.playbook_on_stats` (src/auditlog.py lines 322-344).
The `{'stats': {'summary': ..., 'details': ...}}` part of the entry is
aggregated from ansible's `stats` object (lines 327-340, an external
collaborator), arriving here as `statsPart`; the handler then attaches
the audit-variable snapshot under `'audit_vars'` (line 342) and performs
the `record` call (line 344). -/
def CallbackModule.playbook_on_stats (cm : CallbackModule) (now : String) (statsPart : Dict)
    (fs : Fs) : Except PyError Fs :=
  match cm.audit_vars with
  | none => .error (.attributeError "audit_vars")
  | some av =>
      match cm.logger with
      | none => .error (.attributeError "logger")
      | some lg =>
          .ok (lg.log now fs "playbook_on_stats" (dictSet statsPart "audit_vars" (.vdict av))).2

/-- Modelled from the spec: the host runtime's callback dispatch, which
is not code of this repository.  Spec section 4.4: while not disabled,
"every lifecycle notification from the host runtime ... triggers exactly
one `record` call", and disabling the plugin "short-circuits all
recording" (section 6) — the ansible engine consults the plugin's
`disabled` attribute and skips its handlers entirely when it is set, so a
notification arriving at a disabled plugin is accepted with no effect. -/
def dispatch (cm : CallbackModule) (handler : CallbackModule → Fs → Except PyError Fs)
    (fs : Fs) : Except PyError Fs :=
  if cm.disabled then .ok fs else handler cm fs

/-- One simulated run, as in claim C2 and spec section 8: a run-start, a
task-start, five per-host results and the final statistics, each
delivered through the host runtime's dispatch. -/
def simulatedRun (cm : CallbackModule) (now : String) (startEntry : Dict) (taskName : String)
    (host1 host2 host3 host4 host5 : String) (res1 res2 res3 res4 : Dict) (msg5 : String)
    (statsPart : Dict) (fs : Fs) : Except PyError Fs := do
  let fs1 ← dispatch cm (fun c f => c.playbook_on_start now startEntry f) fs
  let fs2 ← dispatch cm (fun c f => c.playbook_on_task_start now taskName f) fs1
  let fs3 ← dispatch cm (fun c f => c.runner_on_ok now host1 res1 f) fs2
  let fs4 ← dispatch cm (fun c f => c.runner_on_ok now host2 res2 f) fs3
  let fs5 ← dispatch cm (fun c f => c.runner_on_failed now host3 res3 false f) fs4
  let fs6 ← dispatch cm (fun c f => c.runner_on_unreachable now host4 res4 f) fs5
  let fs7 ← dispatch cm (fun c f => c.runner_on_error now host5 msg5 f) fs6
  dispatch cm (fun c f => c.playbook_on_stats now statsPart f) fs7

/-- A sequence of `log` calls through one writer instance: each call
supplies the ambient timestamp, the event name and a fresh entry dict. -/
def runLogCalls (w : JsonAuditLogger) (calls : List (String × String × Dict)) (fs : Fs) : Fs :=
  match calls with
  | [] => fs
  | (now, e, entry) :: rest => runLogCalls w rest (w.log now fs e entry).2

/-- Concatenation of a list of strings. -/
def concatAll : List String → String
  | [] => ""
  | s :: rest => s ++ concatAll rest

/-! ### Helper lemmas: dict assignment and lookup -/

theorem dictGet_dictSet_self (d : Dict) (k : String) (v : Value) :
    dictGet (dictSet d k v) k = some v := by
  induction d with
  | nil => simp [dictGet, dictSet]
  | cons p rest ih =>
      obtain ⟨k2, v2⟩ := p
      by_cases h : k2 = k <;> simp [dictGet, dictSet, h, ih]

theorem dictGet_dictSet_ne (d : Dict) (k k2 : String) (v : Value) (hne : k ≠ k2) :
    dictGet (dictSet d k v) k2 = dictGet d k2 := by
  induction d with
  | nil => simp [dictGet, dictSet, hne]
  | cons p rest ih =>
      obtain ⟨k3, v3⟩ := p
      by_cases h : k3 = k
      · subst h
        simp [dictGet, dictSet, hne]
      · simp [dictGet, dictSet, h, ih]

theorem mem_keys_dictSet (d : Dict) (k k2 : String) (v : Value)
    (h : k2 ∈ (dictSet d k v).map Prod.fst) : k2 ∈ d.map Prod.fst ∨ k2 = k := by
  induction d with
  | nil => simpa [dictSet] using h
  | cons p rest ih =>
      obtain ⟨k3, v3⟩ := p
      by_cases hk : k3 = k
      · subst hk
        exact Or.inl (by simpa [dictSet] using h)
      · simp only [dictSet, if_neg hk, List.map_cons, List.mem_cons] at h
        rcases h with h | h
        · exact Or.inl (by simp [h])
        · rcases ih h with h | h
          · exact Or.inl (by simp [h])
          · exact Or.inr h

theorem nodupKeys_dictSet (d : Dict) (k : String) (v : Value)
    (h : (d.map Prod.fst).Nodup) : ((dictSet d k v).map Prod.fst).Nodup := by
  induction d with
  | nil => simp [dictSet]
  | cons p rest ih =>
      obtain ⟨k3, v3⟩ := p
      simp only [List.map_cons, List.nodup_cons] at h
      by_cases hk : k3 = k
      · subst hk
        simpa [dictSet] using h
      · simp only [dictSet, if_neg hk, List.map_cons, List.nodup_cons]
        refine ⟨fun hmem => ?_, ih h.2⟩
        rcases mem_keys_dictSet rest k k3 v hmem with hm | hm
        · exact h.1 hm
        · exact hk hm

/-! ### Helper lemmas: filesystem append -/

theorem fsRead_fsAppend_self (fs : Fs) (p chunk : String) :
    fsRead (fsAppend fs p chunk) p = fsRead fs p ++ chunk := by
  induction fs with
  | nil => simp [fsRead, fsAppend]
  | cons q rest ih =>
      obtain ⟨q1, c1⟩ := q
      by_cases h : q1 = p <;> simp [fsRead, fsAppend, h, ih]

theorem string_append_assoc (a b c : String) : a ++ b ++ c = a ++ (b ++ c) := by
  apply String.ext
  simp [String.data_append, List.append_assoc]

/-! ### Helper lemmas: no newline occurs in serialized JSON -/

theorem hexDigitChar_ne_newline (n : Nat) : hexDigitChar n ≠ '\n' := by
  have h16 : n % 16 < 16 := Nat.mod_lt _ (by omega)
  unfold hexDigitChar
  generalize hm : n % 16 = m at h16 ⊢
  interval_cases m <;> decide

theorem hex4_ne_newline (n : Nat) : '\n' ∉ hex4 n := by
  intro h
  simp only [hex4, List.mem_cons, List.not_mem_nil, or_false] at h
  rcases h with h | h | h | h <;> exact hexDigitChar_ne_newline _ h.symm

theorem escUnicode_ne_newline (n : Nat) : '\n' ∉ escUnicode n := by
  unfold escUnicode
  split
  · intro h
    rcases List.mem_cons.mp h with h | h
    · exact absurd h (by decide)
    rcases List.mem_cons.mp h with h | h
    · exact absurd h (by decide)
    · exact hex4_ne_newline _ h
  · intro h
    rcases List.mem_append.mp h with h | h <;>
      · rcases List.mem_cons.mp h with h | h
        · exact absurd h (by decide)
        rcases List.mem_cons.mp h with h | h
        · exact absurd h (by decide)
        · exact hex4_ne_newline _ h

theorem escapeChar_ne_newline (c : Char) : '\n' ∉ escapeChar c := by
  unfold escapeChar
  repeat' split
  any_goals decide
  · exact escUnicode_ne_newline _
  · intro h
    have hc : '\n' = c := List.mem_singleton.mp h
    exact (by assumption : ¬ c = '\n') hc.symm

theorem renderString_ne_newline (s : String) : '\n' ∉ renderString s := by
  intro h
  unfold renderString at h
  rcases List.mem_cons.mp h with h | h
  · exact absurd h (by decide)
  rcases List.mem_append.mp h with h | h
  · rcases List.mem_flatten.mp h with ⟨l, hl, hmem⟩
    rcases List.mem_map.mp hl with ⟨c, _, rfl⟩
    exact escapeChar_ne_newline c hmem
  · exact absurd h (by decide)

theorem natDigits_ne_newline (n : Nat) : '\n' ∉ natDigits n := by
  induction n using Nat.strong_induction_on with
  | _ n ih =>
    unfold natDigits
    split
    · intro h
      exact hexDigitChar_ne_newline _ (List.mem_singleton.mp h).symm
    · intro h
      rcases List.mem_append.mp h with h | h
      · exact ih (n / 10) (Nat.div_lt_self (by omega) (by omega)) h
      · exact hexDigitChar_ne_newline _ (List.mem_singleton.mp h).symm

theorem intDigits_ne_newline (n : Int) : '\n' ∉ intDigits n := by
  cases n with
  | ofNat m => exact natDigits_ne_newline m
  | negSucc m =>
      intro h
      rcases List.mem_cons.mp h with h | h
      · exact absurd h (by decide)
      · exact natDigits_ne_newline _ h

theorem joinSep_ne_newline (l : List (List Char)) (h : ∀ x ∈ l, '\n' ∉ x) :
    '\n' ∉ joinSep l := by
  induction l with
  | nil => simp [joinSep]
  | cons x t ih =>
      cases t with
      | nil => exact h x (by simp)
      | cons y t2 =>
          intro hmem
          rcases List.mem_append.mp hmem with hm | hm
          · exact h x (by simp) hm
          rcases List.mem_cons.mp hm with hm | hm
          · exact absurd hm (by decide)
          rcases List.mem_cons.mp hm with hm | hm
          · exact absurd hm (by decide)
          · exact ih (fun z hz => h z (List.mem_cons_of_mem x hz)) hm

mutual

theorem renderValue_ne_newline (v : Value) : '\n' ∉ renderValue v := by
  cases v with
  | vnull => decide
  | vbool b => cases b <;> decide
  | vint n => exact intDigits_ne_newline n
  | vstr s => exact renderString_ne_newline s
  | vdict fields =>
      intro h
      unfold renderValue at h
      rcases List.mem_cons.mp h with h | h
      · exact absurd h (by decide)
      rcases List.mem_append.mp h with h | h
      · refine joinSep_ne_newline _ ?_ h
        intro x hx
        rcases List.mem_map.mp hx with ⟨kv, hkv, rfl⟩
        have hkv2 : kv ∈ renderFields fields := by
          have hperm := List.perm_insertionSort (@keyLe (List Char)) (renderFields fields)
          exact hperm.mem_iff.mp hkv
        intro hmem
        rcases List.mem_append.mp hmem with hm | hm
        · exact renderString_ne_newline _ hm
        rcases List.mem_cons.mp hm with hm | hm
        · exact absurd hm (by decide)
        rcases List.mem_cons.mp hm with hm | hm
        · exact absurd hm (by decide)
        · exact renderFields_ne_newline fields kv hkv2 hm
      · exact absurd h (by decide)

theorem renderFields_ne_newline (l : List (String × Value)) :
    ∀ p ∈ renderFields l, '\n' ∉ p.2 := by
  match l with
  | [] => intro p hp; simp [renderFields] at hp
  | (k, v) :: rest =>
      intro p hp
      rcases List.mem_cons.mp hp with hp | hp
      · subst hp
        exact renderValue_ne_newline v
      · exact renderFields_ne_newline rest p hp

end

theorem json_dumps_ne_newline (v : Value) : '\n' ∉ (json_dumps v).data :=
  renderValue_ne_newline v

/-! ### Helper lemmas: the envelope stamped by `log` -/

theorem envelopeUpdate_get_event (w : JsonAuditLogger) (now e : String) (d : Dict) :
    dictGet (envelopeUpdate w now e d) "event" = some (.vstr e) := by
  unfold envelopeUpdate
  rw [dictGet_dictSet_ne _ _ _ _ (by decide), dictGet_dictSet_ne _ _ _ _ (by decide),
      dictGet_dictSet_ne _ _ _ _ (by decide), dictGet_dictSet_self]

theorem envelopeUpdate_get_timestamp (w : JsonAuditLogger) (now e : String) (d : Dict) :
    dictGet (envelopeUpdate w now e d) "timestamp" = some (.vstr now) := by
  unfold envelopeUpdate
  rw [dictGet_dictSet_ne _ _ _ _ (by decide), dictGet_dictSet_ne _ _ _ _ (by decide),
      dictGet_dictSet_self]

theorem envelopeUpdate_get_controlhost (w : JsonAuditLogger) (now e : String) (d : Dict) :
    dictGet (envelopeUpdate w now e d) "controlhost" = some (.vstr w.hostname) := by
  unfold envelopeUpdate
  rw [dictGet_dictSet_ne _ _ _ _ (by decide), dictGet_dictSet_self]

theorem envelopeUpdate_get_uuid (w : JsonAuditLogger) (now e : String) (d : Dict) :
    dictGet (envelopeUpdate w now e d) "uuid" = some (.vstr w.uuid) := by
  unfold envelopeUpdate
  rw [dictGet_dictSet_self]

theorem envelopeUpdate_get_other (w : JsonAuditLogger) (now e : String) (d : Dict) (k : String)
    (h1 : k ≠ "event") (h2 : k ≠ "timestamp") (h3 : k ≠ "controlhost") (h4 : k ≠ "uuid") :
    dictGet (envelopeUpdate w now e d) k = dictGet d k := by
  unfold envelopeUpdate
  rw [dictGet_dictSet_ne _ _ _ _ (Ne.symm h4), dictGet_dictSet_ne _ _ _ _ (Ne.symm h3),
      dictGet_dictSet_ne _ _ _ _ (Ne.symm h2), dictGet_dictSet_ne _ _ _ _ (Ne.symm h1)]

theorem envelopeUpdate_nodupKeys (w : JsonAuditLogger) (now e : String) (d : Dict)
    (h : (d.map Prod.fst).Nodup) : ((envelopeUpdate w now e d).map Prod.fst).Nodup := by
  unfold envelopeUpdate
  exact nodupKeys_dictSet _ _ _ (nodupKeys_dictSet _ _ _ (nodupKeys_dictSet _ _ _
    (nodupKeys_dictSet _ _ _ h)))

/-- C1: for every event name `e` and every valid field mapping `f` (keys
distinct, including mappings that already bind `event`, `timestamp`,
`controlhost` or `uuid`), `record(e, f)` appends to the logfile exactly
the serialized stamped entry followed by one newline — a single line,
since the serialization contains no newline character — and that line is
the JSON serialization of an object (with distinct keys) whose `event`
key equals `e` and whose `uuid`, `controlhost` and `timestamp` keys hold
the writer's envelope values, the envelope having overridden any
same-named caller-supplied fields. -/
theorem claim_C1_record_appends_one_json_line
    (w : JsonAuditLogger) (now e : String) (f : Dict) (fs : Fs)
    (hvalid : (f.map Prod.fst).Nodup) :
    (w.log now fs e f).2
        = fsAppend fs w.logfile (json_dumps (.vdict (w.log now fs e f).1) ++ "\n") ∧
    '\n' ∉ (json_dumps (.vdict (w.log now fs e f).1)).data ∧
    dictGet (w.log now fs e f).1 "event" = some (.vstr e) ∧
    dictGet (w.log now fs e f).1 "timestamp" = some (.vstr now) ∧
    dictGet (w.log now fs e f).1 "controlhost" = some (.vstr w.hostname) ∧
    dictGet (w.log now fs e f).1 "uuid" = some (.vstr w.uuid) ∧
    ((w.log now fs e f).1.map Prod.fst).Nodup :=
  ⟨rfl, json_dumps_ne_newline _, envelopeUpdate_get_event w now e f,
    envelopeUpdate_get_timestamp w now e f, envelopeUpdate_get_controlhost w now e f,
    envelopeUpdate_get_uuid w now e f, envelopeUpdate_nodupKeys w now e f hvalid⟩

theorem claim_C1_record_appends_one_json_line_witness :
    ((([("uuid", Value.vstr "spoofed"), ("event", Value.vstr "spoofed"),
        ("x", Value.vint 1)] : Dict).map Prod.fst).Nodup) ∧
    dictGet (JsonAuditLogger.log
        { uuid := "u1", hostname := "h1", logfile := "/var/log/ansible/u1.log" }
        "2016-01-01T00:00:00" [] "runner_on_ok"
        [("uuid", Value.vstr "spoofed"), ("event", Value.vstr "spoofed"),
         ("x", Value.vint 1)]).1 "uuid" = some (.vstr "u1") := by
  refine ⟨by decide, ?_⟩
  exact (claim_C1_record_appends_one_json_line
    { uuid := "u1", hostname := "h1", logfile := "/var/log/ansible/u1.log" }
    "2016-01-01T00:00:00" "runner_on_ok"
    [("uuid", Value.vstr "spoofed"), ("event", Value.vstr "spoofed"), ("x", Value.vint 1)]
    [] (by decide)).2.2.2.2.2.1

/-- C4: every line persisted through one writer instance carries that
writer's `uuid` and `hostname`, which are fixed at construction and never
reassigned: after any sequence of `log` calls, the logfile content is its
previous content followed by one serialized line per call, and every one
of those lines is the serialization of a dict whose `uuid` and
`controlhost` entries are the writer's values. -/
theorem claim_C4_all_lines_share_uuid_and_controlhost
    (w : JsonAuditLogger) (calls : List (String × String × Dict)) (fs : Fs) :
    ∃ stamped : List Dict,
      fsRead (runLogCalls w calls fs) w.logfile
        = fsRead fs w.logfile ++ concatAll (stamped.map fun m => json_dumps (.vdict m) ++ "\n") ∧
      ∀ m ∈ stamped, dictGet m "uuid" = some (.vstr w.uuid) ∧
        dictGet m "controlhost" = some (.vstr w.hostname) := by
  induction calls generalizing fs with
  | nil =>
      refine ⟨[], ?_, by simp⟩
      simp [runLogCalls, concatAll]
  | cons c rest ih =>
      obtain ⟨now, e, entry⟩ := c
      obtain ⟨stamped, heq, hall⟩ := ih ((w.log now fs e entry).2)
      refine ⟨envelopeUpdate w now e entry :: stamped, ?_, ?_⟩
      · have hstep : fsRead (w.log now fs e entry).2 w.logfile
            = fsRead fs w.logfile ++ (json_dumps (.vdict (envelopeUpdate w now e entry)) ++ "\n") :=
          fsRead_fsAppend_self fs w.logfile _
        calc fsRead (runLogCalls w ((now, e, entry) :: rest) fs) w.logfile
            = fsRead (runLogCalls w rest (w.log now fs e entry).2) w.logfile := by
              rw [runLogCalls]
          _ = fsRead (w.log now fs e entry).2 w.logfile
                ++ concatAll (stamped.map fun m => json_dumps (.vdict m) ++ "\n") := heq
          _ = fsRead fs w.logfile
                ++ concatAll ((envelopeUpdate w now e entry :: stamped).map
                     fun m => json_dumps (.vdict m) ++ "\n") := by
              rw [hstep, List.map_cons, concatAll, string_append_assoc]
      · intro m hm
        rcases List.mem_cons.mp hm with hm | hm
        · subst hm
          exact ⟨envelopeUpdate_get_uuid w now e entry,
            envelopeUpdate_get_controlhost w now e entry⟩
        · exact hall m hm

/-! ### Helper lemmas: deterministic serialization (sorted keys) -/

theorem renderFields_eq_map (l : List (String × Value)) :
    renderFields l = l.map fun p => (p.1, renderValue p.2) := by
  induction l with
  | nil => simp [renderFields]
  | cons p rest ih =>
      obtain ⟨k, v⟩ := p
      simp [renderFields, ih]

theorem sorted_keyLt_of_sorted_keyLe {α : Type} (l : List (String × α))
    (hs : List.Sorted (@keyLe α) l) (hn : (l.map Prod.fst).Nodup) :
    List.Sorted (@keyLt α) l := by
  have hp : l.Pairwise fun a b => a.1 ≠ b.1 := List.pairwise_map.mp hn
  exact (hs.and hp).imp fun h => lt_of_le_of_ne h.1 h.2

theorem insertionSort_eq_of_perm_of_nodupKeys {α : Type} (l1 l2 : List (String × α))
    (hperm : l1.Perm l2) (hn : (l1.map Prod.fst).Nodup) :
    List.insertionSort keyLe l1 = List.insertionSort keyLe l2 := by
  have hp : (List.insertionSort keyLe l1).Perm (List.insertionSort keyLe l2) :=
    ((List.perm_insertionSort _ _).trans hperm).trans (List.perm_insertionSort _ _).symm
  have hn1 : ((List.insertionSort keyLe l1).map Prod.fst).Nodup :=
    ((List.perm_insertionSort keyLe l1).map Prod.fst).symm.nodup hn
  have hn2 : ((List.insertionSort keyLe l2).map Prod.fst).Nodup :=
    (hp.map Prod.fst).nodup hn1
  exact List.eq_of_perm_of_sorted hp
    (sorted_keyLt_of_sorted_keyLe _ (List.sorted_insertionSort _ _) hn1)
    (sorted_keyLt_of_sorted_keyLe _ (List.sorted_insertionSort _ _) hn2)

theorem json_dumps_eq_of_perm (m1 m2 : Dict) (hperm : m1.Perm m2)
    (hn : (m1.map Prod.fst).Nodup) :
    json_dumps (.vdict m1) = json_dumps (.vdict m2) := by
  have hr : (renderFields m1).Perm (renderFields m2) := by
    rw [renderFields_eq_map, renderFields_eq_map]
    exact hperm.map _
  have hk : ((renderFields m1).map Prod.fst).Nodup := by
    rw [renderFields_eq_map]
    have : (m1.map fun p => (p.1, renderValue p.2)).map Prod.fst = m1.map Prod.fst := by
      simp [List.map_map]
    rw [this]
    exact hn
  simp only [json_dumps, renderValue]
  rw [insertionSort_eq_of_perm_of_nodupKeys _ _ hr hk]

/-- C9: serialization of a merged record is deterministic in the
key-value contents — two dicts holding the same bindings (in any
insertion order, keys distinct) serialize to the identical line, the
items appearing in lexicographic key order — the line contains no newline
character, and each `log` call appends exactly that line plus one
trailing newline to the logfile via append mode. -/
theorem claim_C9_deterministic_single_line_append
    (m1 m2 : Dict) (hperm : m1.Perm m2) (hn : (m1.map Prod.fst).Nodup) :
    json_dumps (.vdict m1) = json_dumps (.vdict m2) ∧
    '\n' ∉ (json_dumps (.vdict m1)).data ∧
    ∀ (w : JsonAuditLogger) (now e : String) (fs : Fs),
      (w.log now fs e m1).2
        = fsAppend fs w.logfile (json_dumps (.vdict (envelopeUpdate w now e m1)) ++ "\n") :=
  ⟨json_dumps_eq_of_perm m1 m2 hperm hn, json_dumps_ne_newline _, fun _ _ _ _ => rfl⟩

theorem claim_C9_deterministic_single_line_append_witness :
    json_dumps (.vdict [("b", Value.vint 1), ("a", Value.vstr "x")])
      = json_dumps (.vdict [("a", Value.vstr "x"), ("b", Value.vint 1)]) :=
  (claim_C9_deterministic_single_line_append
    [("b", Value.vint 1), ("a", Value.vstr "x")]
    [("a", Value.vstr "x"), ("b", Value.vint 1)]
    (List.Perm.swap ("a", Value.vstr "x") ("b", Value.vint 1) [])
    (by decide)).1

/-! ### Helper lemmas: dotted-path resolution -/

theorem get_dotted_segs_empty_dict (segs : List String) :
    get_dotted_segs [] segs = .ok none := by
  induction segs with
  | nil => rfl
  | cons k rest ih =>
      cases rest with
      | nil => simp [get_dotted_segs, dictGet, pyTruthy]
      | cons r2 t2 => simpa [get_dotted_segs, dictGet] using ih

theorem get_dotted_segs_total (segs : List String) (d : Dict) :
    ∃ r, get_dotted_segs d segs = .ok r := by
  induction segs generalizing d with
  | nil => exact ⟨none, rfl⟩
  | cons k rest ih =>
      cases rest with
      | nil =>
          cases hg : dictGet d k with
          | none => exact ⟨none, by simp [get_dotted_segs, hg, pyTruthy]⟩
          | some v =>
              by_cases ht : pyTruthy v
              · exact ⟨some v, by simp [get_dotted_segs, hg, ht]⟩
              · exact ⟨none, by simp [get_dotted_segs, hg, ht]⟩
      | cons r2 t2 =>
          cases hg : (dictGet d k).getD (.vdict []) with
          | vdict d2 =>
              obtain ⟨r, hr⟩ := ih (d := d2)
              exact ⟨r, by simp [get_dotted_segs, hg, hr]⟩
          | vnull => exact ⟨none, by simp [get_dotted_segs, hg]⟩
          | vbool b => exact ⟨none, by simp [get_dotted_segs, hg]⟩
          | vint n => exact ⟨none, by simp [get_dotted_segs, hg]⟩
          | vstr s => exact ⟨none, by simp [get_dotted_segs, hg]⟩

theorem get_dotted_segs_resolves (segs : List String) (d : Dict) (v : Value) :
    get_dotted_segs d segs = .ok (some v) ↔ ResolvesTruthy d segs v := by
  induction segs generalizing d with
  | nil =>
      constructor
      · intro h
        simp [get_dotted_segs] at h
      · intro h
        cases h
  | cons k rest ih =>
      cases rest with
      | nil =>
          constructor
          · intro h
            cases hg : dictGet d k with
            | none => simp [get_dotted_segs, hg, pyTruthy] at h
            | some v2 =>
                by_cases ht : pyTruthy v2
                · simp only [get_dotted_segs, hg, Option.getD_some, ht, if_true] at h
                  have hv : v2 = v := by
                    cases h
                    rfl
                  subst hv
                  exact ResolvesTruthy.last d k v2 hg ht
                · simp [get_dotted_segs, hg, ht] at h
          · intro h
            cases h with
            | last _ _ _ hg ht => simp [get_dotted_segs, hg, ht]
            | step _ _ _ _ _ hne => exact absurd rfl hne
      | cons r2 t2 =>
          constructor
          · intro h
            cases hg : (dictGet d k).getD (.vdict []) with
            | vdict d2 =>
                have h2 : get_dotted_segs d2 (r2 :: t2) = .ok (some v) := by
                  simpa [get_dotted_segs, hg] using h
                have hres : ResolvesTruthy d2 (r2 :: t2) v := (ih (d := d2)).mp h2
                cases hg2 : dictGet d k with
                | none =>
                    rw [hg2] at hg
                    simp at hg
                    subst hg
                    rw [get_dotted_segs_empty_dict] at h2
                    cases h2
                | some v3 =>
                    rw [hg2] at hg
                    simp at hg
                    subst hg
                    exact ResolvesTruthy.step d k (r2 :: t2) d2 v (by simp) hg2 hres
            | vnull => simp [get_dotted_segs, hg] at h
            | vbool b => simp [get_dotted_segs, hg] at h
            | vint n => simp [get_dotted_segs, hg] at h
            | vstr s => simp [get_dotted_segs, hg] at h
          · intro h
            cases h with
            | step _ _ _ d2 _ hne hg hres =>
                have h2 : get_dotted_segs d2 (r2 :: t2) = .ok (some v) := (ih (d := d2)).mpr hres
                simp [get_dotted_segs, hg, h2]

/-- C5: dotted-path resolution is total — it never raises, in particular
never the `KeyError` latent in `d[keys]` and nothing on missing segments,
non-mapping intermediates or falsy terminals — and it returns precisely
the terminal value when every intermediate segment resolves to a mapping
and the final segment is present with a truthy value (`ResolvesTruthy`),
returning "no value" (`None`) in every other case; the four concrete
examples of the claim evaluate as stated. -/
theorem claim_C5_resolution_total_and_characterized :
    (∀ (d : Dict) (keys : String), ∃ r, get_dotted_val_in_dict d keys = .ok r) ∧
    (∀ (d : Dict) (keys : String) (v : Value),
        get_dotted_val_in_dict d keys = .ok (some v)
          ↔ ResolvesTruthy d (pySplit '.' keys) v) ∧
    get_dotted_val_in_dict [("a", .vdict [("b", .vdict [("c", .vint 5)])])] "a.b.c"
      = .ok (some (.vint 5)) ∧
    get_dotted_val_in_dict [("a", .vdict [("b", .vdict [])])] "a.b.c" = .ok none ∧
    get_dotted_val_in_dict [("a", .vint 1)] "a.x" = .ok none ∧
    get_dotted_val_in_dict [] "z" = .ok none :=
  ⟨fun d keys => get_dotted_segs_total (pySplit '.' keys) d,
   fun d keys v => get_dotted_segs_resolves (pySplit '.' keys) d v,
   rfl, rfl, rfl, rfl⟩

/-- C3: writer construction decides writability by the outcome of the
throwaway-file probe (`tempfile.TemporaryFile` create-and-remove, not a
permission-bit inspection — `DirProbe` is exactly that probe's outcome):
a permission-denied probe (`OSError` with `errno.EACCES`) makes
construction fail with the access-denied error, any other `OSError` makes
it fail with that `OSError` carrying the offending directory path, and in
every case — success included, where only the logfile path is computed —
the filesystem is left unchanged, so no logfile is created. -/
theorem claim_C3_probe_failure_modes (u host logdir : String) (fs : Fs) :
    JsonAuditLogger.init u host logdir .ok fs
      = (.ok { uuid := u, hostname := host,
               logfile := ospath_join logdir (u ++ ".log") }, fs) ∧
    JsonAuditLogger.init u host logdir (.oserror eACCES) fs
      = (.error (.exceptionMsg ("Access denied to " ++ logdir)), fs) ∧
    ∀ errno, errno ≠ eACCES →
      JsonAuditLogger.init u host logdir (.oserror errno) fs
        = (.error (.oserror errno logdir), fs) := by
  refine ⟨rfl, rfl, fun errno hne => ?_⟩
  simp [JsonAuditLogger.init, isWritable, hne]

theorem claim_C3_probe_failure_modes_witness :
    JsonAuditLogger.init "u1" "h1" "/var/log/ansible" (.oserror 28) []
      = (.error (.oserror 28 "/var/log/ansible"), []) :=
  (claim_C3_probe_failure_modes "u1" "h1" "/var/log/ansible" []).2.2 28 (by decide)

/-- C7: when writer construction fails (the probe raises, whatever the
errno) and the configured failure mode is `"fail"`, initialization
terminates the process with exit status 1 and the filesystem — hence the
logfile — is untouched; with failure mode `"warn"` the same failure
leaves a constructed module with logging disabled and no writer, again
with the filesystem untouched, and the run continues. -/
theorem claim_C7_failmode_fail_aborts_warn_disables
    (env : Env) (u host : String) (errno : Nat) (fs : Fs)
    (hdis : truthy_string (env.auditlog_disabled.getD "0") = false) :
    (env.failmode.getD "warn" = "fail" →
      CallbackModule.init env u host (.oserror errno) fs = (.exited 1, fs)) ∧
    (env.failmode.getD "warn" = "warn" →
      ∃ cm, CallbackModule.init env u host (.oserror errno) fs = (.ok cm, fs) ∧
        cm.disabled = true ∧ cm.logger = none) := by
  have hlog : ∃ err, JsonAuditLogger.init u host (env.logdir.getD "/var/log/ansible")
      (.oserror errno) fs = (.error err, fs) := by
    by_cases he : errno = eACCES
    · subst he
      exact ⟨_, rfl⟩
    · exact ⟨.oserror errno (env.logdir.getD "/var/log/ansible"),
        by simp [JsonAuditLogger.init, isWritable, he]⟩
  obtain ⟨err, herr⟩ := hlog
  constructor
  · intro hfail
    simp [CallbackModule.init, hdis, herr, hfail]
  · intro hwarn
    refine ⟨{ disabled := true,
              log_logname := truthy_string (env.logname_enabled.getD "1"),
              audit_vars := some (match env.audit_vars with
                | some s => if s ≠ "" then configure s else []
                | none => []),
              logger := none }, ?_, rfl, rfl⟩
    simp [CallbackModule.init, hdis, herr, hwarn]

theorem claim_C7_failmode_fail_aborts_warn_disables_witness :
    CallbackModule.init ⟨none, none, none, none, some "fail"⟩ "u1" "h1" (.oserror eACCES) []
      = (.exited 1, []) :=
  (claim_C7_failmode_fail_aborts_warn_disables ⟨none, none, none, none, some "fail"⟩
    "u1" "h1" eACCES [] (by decide)).1 rfl

/-- C2: when audit logging is disabled via configuration, initialization
performs no filesystem access and yields a module with `disabled` set —
whose writer the host runtime therefore never invokes — and an entire
simulated run (run-start, task-start, five host results, statistics)
leaves the filesystem exactly unchanged while every notification is
accepted without error. -/
theorem claim_C2_disabled_means_no_writes_no_errors
    (env : Env) (u host : String) (probe : DirProbe) (fs : Fs) (now : String)
    (startEntry : Dict) (taskName : String) (host1 host2 host3 host4 host5 : String)
    (res1 res2 res3 res4 : Dict) (msg5 : String) (statsPart : Dict)
    (hdis : truthy_string (env.auditlog_disabled.getD "0") = true) :
    ∃ cm, CallbackModule.init env u host probe fs = (.ok cm, fs) ∧ cm.disabled = true ∧
      simulatedRun cm now startEntry taskName host1 host2 host3 host4 host5
          res1 res2 res3 res4 msg5 statsPart fs = .ok fs := by
  refine ⟨{ disabled := true,
            log_logname := truthy_string (env.logname_enabled.getD "1"),
            audit_vars := none, logger := none }, ?_, rfl, rfl⟩
  simp [CallbackModule.init, hdis]

theorem claim_C2_disabled_means_no_writes_no_errors_witness :
    ∃ cm, CallbackModule.init ⟨some "true", none, none, none, none⟩ "u1" "h1" .ok []
        = (.ok cm, []) ∧ cm.disabled = true ∧
      simulatedRun cm "2016-01-01T00:00:00" [] "task1" "ha" "hb" "hc" "hd" "he"
          [] [] [] [] "boom" [] [] = .ok [] :=
  claim_C2_disabled_means_no_writes_no_errors ⟨some "true", none, none, none, none⟩
    "u1" "h1" .ok [] "2016-01-01T00:00:00" [] "task1" "ha" "hb" "hc" "hd" "he"
    [] [] [] [] "boom" [] (by decide)

/-- C8: with configured audited paths `["version", "env.stage"]` and play
variables `{"version": "1.2", "env": {"stage": "prod"}}`, the snapshot
loop resolves every configured path to exactly
`{"version": "1.2", "env.stage": "prod"}`; the play-start handler stores
that mapping on the module while its own logged record carries no
`audit_vars` key (not emitted immediately), and the run-statistics
handler attaches the stored mapping under `audit_vars` to the
`playbook_on_stats` record it logs. -/
theorem claim_C8_snapshot_into_stats_record
    (w : JsonAuditLogger) (now : String) (statsPart : Dict) (fs : Fs)
    (p : PlayFields) (hosts_in_play : List String) (hne : hosts_in_play ≠ []) :
    snapshotVars (configure "version,env.stage")
        [("version", .vstr "1.2"), ("env", .vdict [("stage", .vstr "prod")])]
      = .ok [("version", .vstr "1.2"), ("env.stage", .vstr "prod")] ∧
    (∃ m, CallbackModule.playbook_on_play_start
        { disabled := false, log_logname := true,
          audit_vars := some (configure "version,env.stage"), logger := some w }
        now hosts_in_play
        [("version", .vstr "1.2"), ("env", .vdict [("stage", .vstr "prod")])] p fs
      = .ok ({ disabled := false, log_logname := true,
               audit_vars := some [("version", .vstr "1.2"), ("env.stage", .vstr "prod")],
               logger := some w },
             fsAppend fs w.logfile (json_dumps (.vdict m) ++ "\n")) ∧
      dictGet m "audit_vars" = none ∧
      dictGet m "event" = some (.vstr "playbook_on_play_start")) ∧
    (∃ m2, CallbackModule.playbook_on_stats
        { disabled := false, log_logname := true,
          audit_vars := some [("version", .vstr "1.2"), ("env.stage", .vstr "prod")],
          logger := some w } now statsPart fs
      = .ok (fsAppend fs w.logfile (json_dumps (.vdict m2) ++ "\n")) ∧
      dictGet m2 "audit_vars"
        = some (.vdict [("version", .vstr "1.2"), ("env.stage", .vstr "prod")]) ∧
      dictGet m2 "event" = some (.vstr "playbook_on_stats")) := by
  have hlen : ¬ hosts_in_play.length = 0 := by
    simpa [List.length_eq_zero] using hne
  refine ⟨rfl, ⟨envelopeUpdate w now "playbook_on_play_start"
      [("name", p.name), ("remote_user", p.remote_user), ("su", p.su),
       ("su_user", p.su_user), ("sudo", p.sudo_v), ("sudo_user", p.sudo_user),
       ("become", p.become), ("become_method", p.become_method),
       ("become_user", p.become_user), ("serial", p.serial),
       ("max_fail_percentage", p.max_fail_percentage), ("hosts", p.hosts)],
      ?_, ?_, envelopeUpdate_get_event _ _ _ _⟩,
    ⟨envelopeUpdate w now "playbook_on_stats"
      (dictSet statsPart "audit_vars"
        (.vdict [("version", .vstr "1.2"), ("env.stage", .vstr "prod")])),
      rfl, ?_, envelopeUpdate_get_event _ _ _ _⟩⟩
  · rw [CallbackModule.playbook_on_play_start, if_neg hlen]
    rfl
  · rw [envelopeUpdate_get_other _ _ _ _ _ (by decide) (by decide) (by decide) (by decide)]
    simp [dictGet]
  · rw [envelopeUpdate_get_other _ _ _ _ _ (by decide) (by decide) (by decide) (by decide)]
    exact dictGet_dictSet_self _ _ _

theorem claim_C8_snapshot_into_stats_record_witness :
    snapshotVars (configure "version,env.stage")
        [("version", .vstr "1.2"), ("env", .vdict [("stage", .vstr "prod")])]
      = .ok [("version", .vstr "1.2"), ("env.stage", .vstr "prod")] :=
  (claim_C8_snapshot_into_stats_record
    { uuid := "u1", hostname := "h1", logfile := "/var/log/ansible/u1.log" }
    "2016-01-01T00:00:00" [] []
    ⟨.vnull, .vnull, .vnull, .vnull, .vnull, .vnull, .vnull, .vnull, .vnull, .vnull,
     .vnull, .vnull⟩
    ["hostA"] (by decide)).1

/-! ### C6: the configuration sanitizer -/

theorem isLatin1WordExtra_eq_false (n : Nat) (h : n < 128) :
    isLatin1WordExtra n = false := by
  unfold isLatin1WordExtra
  simp only [Bool.or_eq_false_iff, Bool.and_eq_false_iff, Bool.not_eq_false',
    decide_eq_false_iff_not, decide_eq_true_eq, not_le]
  omega

/-- C6 fails as stated: the sanitizer keeps every Unicode word character,
not only `[A-Za-z0-9_]` — on the input `"é"` the code keeps the letter
(producing the path `"é"`), while the claimed character class would
discard it (producing the empty path), so the resulting mappings
differ. -/
theorem claim_C6_counterexample_unicode_word_char :
    ((configure "é").map Prod.fst) ≠ ((configureSpecAscii "é").map Prod.fst) := by
  decide

/-- C6 amended: for configuration strings of ASCII characters, `configure`
discards exactly the characters outside `[A-Za-z0-9_.,]` before splitting
on commas and mapping each surviving dotted path to an unset value; for
non-ASCII characters the code instead retains every Unicode word
character (for example the letter `é`), because the sanitizer's class is
`\w` under `re.UNICODE`, not the ASCII class. -/
theorem claim_C6_amended_ascii_sanitizer (raw : String)
    (hascii : ∀ c ∈ raw.data, c.toNat < 128) :
    configure raw = configureSpecAscii raw ∧
    configure "é" = [("é", .vint 0)] := by
  refine ⟨?_, rfl⟩
  have hfilter : raw.data.filter (fun c => isPyWordChar c || c = '.' || c = ',')
      = raw.data.filter (fun c => c.isAlphanum || c = '_' || c = '.' || c = ',') := by
    apply List.filter_congr
    intro c hc
    have hlt := hascii c hc
    have hex : isLatin1WordExtra c.toNat = false := isLatin1WordExtra_eq_false _ hlt
    simp [isPyWordChar, hex]
  simp only [configure, configureSpecAscii]
  rw [hfilter]

theorem claim_C6_amended_ascii_sanitizer_witness :
    configure "version,my.nested.var,bad-char!"
      = configureSpecAscii "version,my.nested.var,bad-char!" :=
  (claim_C6_amended_ascii_sanitizer "version,my.nested.var,bad-char!" (by decide)).1

/-! ### C10: reference-level view of `log` -/

theorem heapGet_heapSet_self (h : Heap) (r : Nat) (d : Dict) (hr : r < h.length) :
    heapGet (heapSet h r d) r = d := by
  induction h generalizing r with
  | nil => simp at hr
  | cons x t ih =>
      cases r with
      | zero => rfl
      | succ n => exact ih n (by simpa using hr)

theorem heapGet_heapSet_ne (h : Heap) (r r2 : Nat) (d : Dict) (hne : r2 ≠ r) :
    heapGet (heapSet h r d) r2 = heapGet h r2 := by
  induction h generalizing r r2 with
  | nil => rfl
  | cons x t ih =>
      cases r with
      | zero =>
          cases r2 with
          | zero => exact absurd rfl hne
          | succ m => rfl
      | succ n =>
          cases r2 with
          | zero => rfl
          | succ m => exact ih n m fun hh => hne (by rw [hh])

theorem heapSet_heapSet_self (h : Heap) (r : Nat) (d1 d2 : Dict) :
    heapSet (heapSet h r d1) r d2 = heapSet h r d2 := by
  induction h generalizing r with
  | nil => rfl
  | cons x t ih =>
      cases r with
      | zero => rfl
      | succ n => simp [heapSet, ih]

/-- C10: `log` writes the four envelope keys into whichever dict object
the `log_entry` parameter names, in place — passing a dict at reference
`r` leaves every other heap cell untouched while cell `r` now holds the
stamped entry — and the parameter's default value is one shared mutable
dict object: every call that omits the argument resolves to the same
cell `defaultRef`, so two such calls mutate that one object twice, the
second reading the entry as the first left it. -/
theorem claim_C10_inplace_mutation_shared_default
    (w : JsonAuditLogger) (defaultRef : Nat) (now1 now2 e1 e2 : String) (h : Heap)
    (fs fs2 : Fs) (r : Nat) (hr : r < h.length) (hd : defaultRef < h.length) :
    ((w.logRef defaultRef now1 e1 (some r) h fs).1
        = heapSet h r (envelopeUpdate w now1 e1 (heapGet h r)) ∧
      heapGet (w.logRef defaultRef now1 e1 (some r) h fs).1 r
        = envelopeUpdate w now1 e1 (heapGet h r) ∧
      ∀ r2, r2 ≠ r →
        heapGet (w.logRef defaultRef now1 e1 (some r) h fs).1 r2 = heapGet h r2) ∧
    ((w.logRef defaultRef now1 e1 none h fs).1
        = heapSet h defaultRef (envelopeUpdate w now1 e1 (heapGet h defaultRef)) ∧
      (w.logRef defaultRef now2 e2 none (w.logRef defaultRef now1 e1 none h fs).1 fs2).1
        = heapSet h defaultRef
            (envelopeUpdate w now2 e2
              (envelopeUpdate w now1 e1 (heapGet h defaultRef)))) := by
  refine ⟨⟨rfl, ?_, ?_⟩, rfl, ?_⟩
  · exact heapGet_heapSet_self h r _ hr
  · intro r2 hne
    exact heapGet_heapSet_ne h r r2 _ hne
  · show heapSet (heapSet h defaultRef _) defaultRef
        (envelopeUpdate w now2 e2
          (heapGet (heapSet h defaultRef (envelopeUpdate w now1 e1 (heapGet h defaultRef)))
            defaultRef)) = _
    rw [heapGet_heapSet_self h defaultRef _ hd, heapSet_heapSet_self]

theorem claim_C10_inplace_mutation_shared_default_witness :
    (JsonAuditLogger.logRef { uuid := "u1", hostname := "h1", logfile := "/l/u1.log" }
        0 "t2" "e2" none
        (JsonAuditLogger.logRef { uuid := "u1", hostname := "h1", logfile := "/l/u1.log" }
          0 "t1" "e1" none [[]] []).1 []).1
      = heapSet [[]] 0
          (envelopeUpdate { uuid := "u1", hostname := "h1", logfile := "/l/u1.log" }
            "t2" "e2"
            (envelopeUpdate { uuid := "u1", hostname := "h1", logfile := "/l/u1.log" }
              "t1" "e1" (heapGet [[]] 0))) :=
  (claim_C10_inplace_mutation_shared_default
    { uuid := "u1", hostname := "h1", logfile := "/l/u1.log" }
    0 "t1" "t2" "e1" "e2" [[]] [] [] 0 (by decide) (by decide)).2.2
